import Mathlib

/-!
# Federation synchronization engine — verification development

Shallow embedding of the federation sync core of `@claude-flow/federation`
(`federation-hub.ts`): the vector-clock algebra (`compareVectorClocks`,
`mergeVectorClocks`, `incrementVectorClock`) and the `FederationHub` session
(`connect`, `disconnect`, `sync`, `forcePush`, `forcePull`, `recordChange`,
`processRemoteUpdate`, `resolveConflict`).

A JavaScript `VectorClock` is an object mapping agent ids to numbers; we embed
it as an association list `List (String × Nat)` in insertion order, with lookup
`vcGet` returning 0 for absent keys (the JS code reads `clock[k] || 0`) and
`vcSet` modelling `obj[k] = v` (update the existing entry in place, else append,
which is JS property-insertion order).  Wall-clock readings (`Date.now()`) are
external inputs and are passed in explicitly; the sync transport and the
storage applier are the collaborator seams of the code (`sendSyncMessage`,
`applyUpdate`) and are modelled as an oracle function and an output trace.
-/

namespace Federation

/-- Result of comparing two vector clocks (`ClockComparison` in `types.ts`). -/
inductive ClockComparison
  | before
  | after
  | concurrent
  | equal
deriving DecidableEq, Repr

/-- A vector clock: association list from agent id to logical timestamp,
in JS property-insertion order.  Missing keys read as 0. -/
abbrev VectorClock := List (String × Nat)

/-- `vcGet c k` embeds the JS read `c[k] || 0`: value of the first entry with
key `k`, or 0 when absent. -/
def vcGet : VectorClock → String → Nat
  | [], _ => 0
  | (k, v) :: rest, key => if k = key then v else vcGet rest key

/-- Keys of a clock, in order (`Object.keys`). -/
def vcKeys (c : VectorClock) : List String := c.map Prod.fst

/-- `vcSet c key v` embeds the JS write `c[key] = v` on an object: if the key
is present its entry is overwritten in place, otherwise the entry is appended
(JS property-insertion order). -/
def vcSet (c : VectorClock) (key : String) (v : Nat) : VectorClock :=
  if c.any (fun p => decide (p.1 = key)) then
    c.map (fun p => if p.1 = key then (key, v) else p)
  else
    c ++ [(key, v)]

/-- `incrementVectorClock` from `federation-hub.ts`:
`{ ...clock, [agentId]: (clock[agentId] || 0) + 1 }`. -/
def incrementVectorClock (clock : VectorClock) (agentId : String) : VectorClock :=
  vcSet clock agentId (vcGet clock agentId + 1)

/-- `mergeVectorClocks` from `federation-hub.ts`: start from a copy of `a` and,
for each entry `(k, ts)` of `b` in order, set `result[k] = max(result[k] || 0, ts)`. -/
def mergeVectorClocks (a b : VectorClock) : VectorClock :=
  b.foldl (fun result p => vcSet result p.1 (max (vcGet result p.1) p.2)) a

/-- `compareVectorClocks` from `federation-hub.ts`: scan the union of the key
sets, tracking whether either clock has a strictly newer component. -/
def compareVectorClocks (a b : VectorClock) : ClockComparison :=
  let allAgents := (vcKeys a ++ vcKeys b).dedup
  let aHasNewer := allAgents.any (fun k => decide (vcGet b k < vcGet a k))
  let bHasNewer := allAgents.any (fun k => decide (vcGet a k < vcGet b k))
  if aHasNewer && bHasNewer then .concurrent
  else if aHasNewer then .after
  else if bHasNewer then .before
  else .equal

/-- The spec's reference definition of clock comparison, following §4.1 of the
specification word for word: over the union of keys (absent = 0), `equal` iff
all dimensions agree, `before` iff every dimension of `a` is ≤ `b`'s (and they
are not all equal), `after` symmetrically, else `concurrent`. -/
def specCompare (a b : VectorClock) : ClockComparison :=
  let allAgents := (vcKeys a ++ vcKeys b).dedup
  if allAgents.all (fun k => decide (vcGet a k = vcGet b k)) then .equal
  else if allAgents.all (fun k => decide (vcGet a k ≤ vcGet b k)) then .before
  else if allAgents.all (fun k => decide (vcGet b k ≤ vcGet a k)) then .after
  else .concurrent

/-- Swap `before` and `after`, fixing `concurrent` and `equal`. -/
def ClockComparison.swap : ClockComparison → ClockComparison
  | .before => .after
  | .after => .before
  | .concurrent => .concurrent
  | .equal => .equal

/-- A clock is well formed when its keys are distinct — every clock produced
by a JS object satisfies this. -/
def VCWF (c : VectorClock) : Prop := (vcKeys c).Nodup

section VectorClockLemmas

/-- Unfolding `vcGet` on the empty clock. -/
theorem vcGet_nil (k : String) : vcGet [] k = 0 := rfl

/-- Unfolding `vcGet` on a cons. -/
theorem vcGet_cons (k1 : String) (v1 : Nat) (rest : VectorClock) (key : String) :
    vcGet ((k1, v1) :: rest) key = if k1 = key then v1 else vcGet rest key := rfl

/-- A key absent from a clock reads as 0. -/
theorem vcGet_eq_zero_of_not_mem : ∀ {c : VectorClock} {k : String},
    k ∉ vcKeys c → vcGet c k = 0
  | [], _, _ => rfl
  | (k1, v1) :: rest, k, h => by
      have h1 : ¬ (k1 = k) := by
        intro he
        exact h (by simp [vcKeys, he])
      have h2 : k ∉ vcKeys rest := by
        intro hm
        apply h
        simp only [vcKeys, List.map_cons, List.mem_cons]
        exact Or.inr hm
      rw [vcGet_cons, if_neg h1]
      exact vcGet_eq_zero_of_not_mem h2

/-- A nonzero read means the key is present. -/
theorem mem_vcKeys_of_vcGet_ne_zero {c : VectorClock} {k : String}
    (h : vcGet c k ≠ 0) : k ∈ vcKeys c := by
  by_contra hk
  exact h (vcGet_eq_zero_of_not_mem hk)

/-- The `any`-test used by `vcSet` decides key membership. -/
theorem vcHas_iff (c : VectorClock) (key : String) :
    (c.any (fun p => decide (p.1 = key))) = true ↔ key ∈ vcKeys c := by
  simp only [List.any_eq_true, decide_eq_true_eq, vcKeys, List.mem_map]

/-- Overwriting the entry for a present `key` makes it read `v`. -/
theorem vcGet_map_set_self : ∀ (c : VectorClock) (key : String) (v : Nat),
    key ∈ vcKeys c →
    vcGet (c.map (fun p => if p.1 = key then (key, v) else p)) key = v
  | [], key, _, h => absurd h (by simp [vcKeys])
  | (k1, v1) :: rest, key, v, h => by
      simp only [List.map_cons]
      by_cases hp : k1 = key
      · subst hp
        rw [if_pos (show (k1, v1).1 = k1 from rfl), vcGet_cons, if_pos rfl]
      · have hrest : key ∈ vcKeys rest := by
          simp only [vcKeys, List.map_cons, List.mem_cons] at h
          rcases h with h | h
          · exact absurd h.symm hp
          · exact h
        rw [if_neg (show ¬ ((k1, v1).1 = key) from hp), vcGet_cons, if_neg hp]
        exact vcGet_map_set_self rest key v hrest

/-- Overwriting entries for `key` does not change reads at other keys. -/
theorem vcGet_map_set_ne : ∀ (c : VectorClock) (key k : String) (v : Nat),
    k ≠ key →
    vcGet (c.map (fun p => if p.1 = key then (key, v) else p)) k = vcGet c k
  | [], _, _, _, _ => rfl
  | (k1, v1) :: rest, key, k, v, hk => by
      simp only [List.map_cons]
      by_cases hp : k1 = key
      · subst hp
        have h1 : ¬ (k1 = k) := fun he => hk he.symm
        rw [if_pos (show (k1, v1).1 = k1 from rfl), vcGet_cons, if_neg h1,
          vcGet_cons, if_neg h1]
        exact vcGet_map_set_ne rest k1 k v hk
      · rw [if_neg (show ¬ ((k1, v1).1 = key) from hp), vcGet_cons, vcGet_cons]
        by_cases hq : k1 = k
        · rw [if_pos hq, if_pos hq]
        · rw [if_neg hq, if_neg hq]
          exact vcGet_map_set_ne rest key k v hk

/-- Appending a fresh entry makes its key read its value. -/
theorem vcGet_append_singleton_self : ∀ {c : VectorClock} {key : String} (v : Nat),
    key ∉ vcKeys c → vcGet (c ++ [(key, v)]) key = v
  | [], key, v, _ => by rw [List.nil_append, vcGet_cons, if_pos rfl]
  | (k1, v1) :: rest, key, v, h => by
      have h1 : ¬ (k1 = key) := by
        intro he
        exact h (by simp [vcKeys, he])
      have h2 : key ∉ vcKeys rest := by
        intro hm
        apply h
        simp only [vcKeys, List.map_cons, List.mem_cons]
        exact Or.inr hm
      rw [List.cons_append, vcGet_cons, if_neg h1]
      exact vcGet_append_singleton_self v h2

/-- Appending an entry for another key does not change a read. -/
theorem vcGet_append_singleton_ne : ∀ (c : VectorClock) {key k : String} (v : Nat),
    k ≠ key → vcGet (c ++ [(key, v)]) k = vcGet c k
  | [], key, k, v, hk => by
      have h1 : ¬ (key = k) := fun he => hk he.symm
      rw [List.nil_append, vcGet_cons, if_neg h1]
  | (k1, v1) :: rest, key, k, v, hk => by
      rw [List.cons_append, vcGet_cons, vcGet_cons]
      by_cases hp : k1 = k
      · rw [if_pos hp, if_pos hp]
      · rw [if_neg hp, if_neg hp]
        exact vcGet_append_singleton_ne rest v hk

/-- Reads after a `vcSet`: the written key reads the written value, all other
keys are unchanged. -/
theorem vcGet_vcSet (c : VectorClock) (key k : String) (v : Nat) :
    vcGet (vcSet c key v) k = if k = key then v else vcGet c k := by
  unfold vcSet
  by_cases hmem : key ∈ vcKeys c
  · rw [if_pos ((vcHas_iff c key).mpr hmem)]
    by_cases hk : k = key
    · subst hk
      rw [if_pos rfl]
      exact vcGet_map_set_self c k v hmem
    · rw [if_neg hk]
      exact vcGet_map_set_ne c key k v hk
  · rw [if_neg (fun h => hmem ((vcHas_iff c key).mp h))]
    by_cases hk : k = key
    · subst hk
      rw [if_pos rfl]
      exact vcGet_append_singleton_self v hmem
    · rw [if_neg hk]
      exact vcGet_append_singleton_ne c v hk

/-- The keys after a `vcSet` are the old keys, with `key` appended when new. -/
theorem vcKeys_vcSet (c : VectorClock) (key : String) (v : Nat) :
    vcKeys (vcSet c key v) = vcKeys c ∨
    (vcKeys (vcSet c key v) = vcKeys c ++ [key] ∧ key ∉ vcKeys c) := by
  unfold vcSet
  by_cases hmem : key ∈ vcKeys c
  · left
    rw [if_pos ((vcHas_iff c key).mpr hmem)]
    simp only [vcKeys, List.map_map]
    apply List.map_congr_left
    intro p _
    by_cases hp : p.1 = key
    · simp [Function.comp, hp]
    · simp [Function.comp, hp]
  · right
    rw [if_neg (fun h => hmem ((vcHas_iff c key).mp h))]
    exact ⟨by simp [vcKeys], hmem⟩

/-- `vcSet` preserves well-formedness. -/
theorem VCWF_vcSet {c : VectorClock} (h : VCWF c) (key : String) (v : Nat) :
    VCWF (vcSet c key v) := by
  rcases vcKeys_vcSet c key v with h1 | ⟨h1, h2⟩
  · unfold VCWF
    rw [h1]
    exact h
  · unfold VCWF
    rw [h1]
    refine List.Nodup.append h (List.nodup_singleton key) ?_
    intro x hx hxk
    simp only [List.mem_singleton] at hxk
    subst hxk
    exact h2 hx

/-- Reads after an increment. -/
theorem vcGet_incrementVectorClock (clock : VectorClock) (agentId k : String) :
    vcGet (incrementVectorClock clock agentId) k =
      if k = agentId then vcGet clock agentId + 1 else vcGet clock k := by
  unfold incrementVectorClock
  exact vcGet_vcSet clock agentId k _

/-- Unfolding `mergeVectorClocks` on the empty right operand. -/
theorem merge_nil (a : VectorClock) : mergeVectorClocks a [] = a := rfl

/-- Unfolding `mergeVectorClocks` on a cons: fold one entry of `b` into the
accumulator. -/
theorem merge_cons (a : VectorClock) (k1 : String) (v1 : Nat) (rest : VectorClock) :
    mergeVectorClocks a ((k1, v1) :: rest) =
      mergeVectorClocks (vcSet a k1 (max (vcGet a k1) v1)) rest := rfl

/-- Merging any clock into a well-formed accumulator stays well formed. -/
theorem VCWF_merge : ∀ (b a : VectorClock), VCWF a → VCWF (mergeVectorClocks a b)
  | [], _, ha => ha
  | (k1, v1) :: rest, a, ha => by
      rw [merge_cons]
      exact VCWF_merge rest _ (VCWF_vcSet ha k1 _)

/-- Pointwise reading of a merge: the maximum of the two reads, provided the
right operand has no duplicate keys (always true of a JS object). -/
theorem vcGet_merge : ∀ (b a : VectorClock), VCWF b → ∀ k,
    vcGet (mergeVectorClocks a b) k = max (vcGet a k) (vcGet b k)
  | [], a, _, k => by rw [merge_nil, vcGet_nil]; omega
  | (k1, v1) :: rest, a, hb, k => by
      have hk1 : k1 ∉ vcKeys rest := by
        have := hb
        unfold VCWF at this
        simp only [vcKeys, List.map_cons, List.nodup_cons] at this
        exact this.1
      have hrest : VCWF rest := by
        have := hb
        unfold VCWF at this
        simp only [vcKeys, List.map_cons, List.nodup_cons] at this
        exact this.2
      rw [merge_cons, vcGet_merge rest _ hrest k, vcGet_vcSet, vcGet_cons]
      by_cases hk : k = k1
      · subst hk
        rw [if_pos rfl, if_pos rfl, vcGet_eq_zero_of_not_mem hk1]
        omega
      · rw [if_neg hk, if_neg (fun he => hk he.symm)]

/-- If no element of the list satisfies the decidable test, no member does. -/
theorem not_of_any_eq_false {l : List String} {p : String → Prop} [DecidablePred p]
    (h : (l.any fun k => decide (p k)) = false) {k : String} (hk : k ∈ l) : ¬ p k := by
  intro hp
  have ht : (l.any fun k => decide (p k)) = true :=
    List.any_eq_true.mpr ⟨k, hk, decide_eq_true hp⟩
  rw [h] at ht
  exact Bool.false_ne_true ht

/-- `any` only depends on the membership of the list scanned. -/
theorem any_congr_mem {l l' : List String} (f : String → Bool)
    (h : ∀ k, k ∈ l ↔ k ∈ l') : l.any f = l'.any f := by
  by_cases h1 : l.any f = true
  · rw [h1]
    rcases List.any_eq_true.mp h1 with ⟨k, hk, hf⟩
    exact (List.any_eq_true.mpr ⟨k, (h k).mp hk, hf⟩).symm
  · have h1f : l.any f = false := Bool.eq_false_iff.mpr h1
    rw [h1f]
    by_contra h2
    have h2t : l'.any f = true := eq_true_of_ne_false (fun he => h2 he.symm)
    rcases List.any_eq_true.mp h2t with ⟨k, hk, hf⟩
    exact h1 (List.any_eq_true.mpr ⟨k, (h k).mpr hk, hf⟩)

/-- Core Boolean equivalence between the implementation's has-newer scan and
the spec's decision chain, over one shared key list. -/
theorem compare_spec_general (l : List String) (f g : String → Nat) :
    (if (l.any fun k => decide (g k < f k)) && (l.any fun k => decide (f k < g k)) then
       ClockComparison.concurrent
     else if l.any fun k => decide (g k < f k) then ClockComparison.after
     else if l.any fun k => decide (f k < g k) then ClockComparison.before
     else ClockComparison.equal) =
    (if l.all fun k => decide (f k = g k) then ClockComparison.equal
     else if l.all fun k => decide (f k ≤ g k) then ClockComparison.before
     else if l.all fun k => decide (g k ≤ f k) then ClockComparison.after
     else ClockComparison.concurrent) := by
  rcases Bool.eq_false_or_eq_true (l.any fun k => decide (g k < f k)) with hA | hA <;>
    rcases Bool.eq_false_or_eq_true (l.any fun k => decide (f k < g k)) with hB | hB
  · -- both newer somewhere: concurrent on both sides
    rcases List.any_eq_true.mp hA with ⟨k0, hk0, hd0⟩
    rcases List.any_eq_true.mp hB with ⟨k1, hk1, hd1⟩
    have hlt0 : g k0 < f k0 := of_decide_eq_true hd0
    have hlt1 : f k1 < g k1 := of_decide_eq_true hd1
    have hc1 : (l.all fun k => decide (f k = g k)) = false := by
      rw [Bool.eq_false_iff]
      intro hall
      have := of_decide_eq_true (List.all_eq_true.mp hall k0 hk0)
      omega
    have hc2 : (l.all fun k => decide (f k ≤ g k)) = false := by
      rw [Bool.eq_false_iff]
      intro hall
      have := of_decide_eq_true (List.all_eq_true.mp hall k0 hk0)
      omega
    have hc3 : (l.all fun k => decide (g k ≤ f k)) = false := by
      rw [Bool.eq_false_iff]
      intro hall
      have := of_decide_eq_true (List.all_eq_true.mp hall k1 hk1)
      omega
    rw [hA, hB, hc1, hc2, hc3]
    simp
  · -- only g < f somewhere: after on both sides
    rcases List.any_eq_true.mp hA with ⟨k0, hk0, hd0⟩
    have hlt : g k0 < f k0 := of_decide_eq_true hd0
    have hc1 : (l.all fun k => decide (f k = g k)) = false := by
      rw [Bool.eq_false_iff]
      intro hall
      have := of_decide_eq_true (List.all_eq_true.mp hall k0 hk0)
      omega
    have hc2 : (l.all fun k => decide (f k ≤ g k)) = false := by
      rw [Bool.eq_false_iff]
      intro hall
      have := of_decide_eq_true (List.all_eq_true.mp hall k0 hk0)
      omega
    have hc3 : (l.all fun k => decide (g k ≤ f k)) = true := by
      rw [List.all_eq_true]
      intro k hk
      have h1 : ¬ (f k < g k) := not_of_any_eq_false hB hk
      exact decide_eq_true (by omega)
    rw [hA, hB, hc1, hc2, hc3]
    simp
  · -- only f < g somewhere: before on both sides
    rcases List.any_eq_true.mp hB with ⟨k0, hk0, hd0⟩
    have hlt : f k0 < g k0 := of_decide_eq_true hd0
    have hc1 : (l.all fun k => decide (f k = g k)) = false := by
      rw [Bool.eq_false_iff]
      intro hall
      have := of_decide_eq_true (List.all_eq_true.mp hall k0 hk0)
      omega
    have hc2 : (l.all fun k => decide (f k ≤ g k)) = true := by
      rw [List.all_eq_true]
      intro k hk
      have h1 : ¬ (g k < f k) := not_of_any_eq_false hA hk
      exact decide_eq_true (by omega)
    rw [hA, hB, hc1, hc2]
    simp
  · -- neither has a newer component: equal on both sides
    have hc1 : (l.all fun k => decide (f k = g k)) = true := by
      rw [List.all_eq_true]
      intro k hk
      have h1 : ¬ (g k < f k) := not_of_any_eq_false hA hk
      have h2 : ¬ (f k < g k) := not_of_any_eq_false hB hk
      exact decide_eq_true (by omega)
    rw [hA, hB, hc1]
    simp

/-- The implementation's comparison agrees with the spec's reference
decision procedure. -/
theorem compare_eq_specCompare (a b : VectorClock) :
    compareVectorClocks a b = specCompare a b :=
  compare_spec_general ((vcKeys a ++ vcKeys b).dedup) (vcGet a) (vcGet b)

/-- Comparing a clock with itself yields `equal`. -/
theorem compare_self (a : VectorClock) :
    compareVectorClocks a a = ClockComparison.equal := by
  simp only [compareVectorClocks]
  have h : (((vcKeys a ++ vcKeys a).dedup).any fun k => decide (vcGet a k < vcGet a k))
      = false := by
    rw [Bool.eq_false_iff]
    intro hx
    rcases List.any_eq_true.mp hx with ⟨k, _, hd⟩
    exact absurd (of_decide_eq_true hd) (lt_irrefl _)
  rw [h]
  simp

/-- Swapping the arguments of the comparison swaps `before` and `after` and
fixes `equal` and `concurrent`. -/
theorem compare_symm (a b : VectorClock) :
    compareVectorClocks b a = (compareVectorClocks a b).swap := by
  simp only [compareVectorClocks]
  have hmem : ∀ k, k ∈ (vcKeys b ++ vcKeys a).dedup ↔ k ∈ (vcKeys a ++ vcKeys b).dedup := by
    intro k
    simp only [List.mem_dedup, List.mem_append]
    exact or_comm
  have e1 : (((vcKeys b ++ vcKeys a).dedup).any fun k => decide (vcGet a k < vcGet b k)) =
      (((vcKeys a ++ vcKeys b).dedup).any fun k => decide (vcGet a k < vcGet b k)) :=
    any_congr_mem _ hmem
  have e2 : (((vcKeys b ++ vcKeys a).dedup).any fun k => decide (vcGet b k < vcGet a k)) =
      (((vcKeys a ++ vcKeys b).dedup).any fun k => decide (vcGet b k < vcGet a k)) :=
    any_congr_mem _ hmem
  rw [e1, e2]
  rcases Bool.eq_false_or_eq_true
      (((vcKeys a ++ vcKeys b).dedup).any fun k => decide (vcGet b k < vcGet a k)) with hP | hP <;>
    rcases Bool.eq_false_or_eq_true
      (((vcKeys a ++ vcKeys b).dedup).any fun k => decide (vcGet a k < vcGet b k)) with hQ | hQ <;>
    rw [hP, hQ] <;> simp [ClockComparison.swap]

end VectorClockLemmas

/-- C7: `compareVectorClocks` matches the reference definition over the union
of keys with absent keys treated as 0 (`before` iff every dimension of `a` is
≤ `b`'s and at least one is strictly smaller, `after` symmetrically,
`concurrent` iff each clock has a strictly greater dimension, `equal` iff all
dimensions agree); hence `compare(a, a) = equal`, and swapping the arguments
swaps `before`/`after` and agrees on `equal`/`concurrent`. -/
theorem compareVectorClocks_correct : ∀ a b : VectorClock,
    compareVectorClocks a b = specCompare a b ∧
    compareVectorClocks a a = ClockComparison.equal ∧
    compareVectorClocks b a = (compareVectorClocks a b).swap :=
  fun a b => ⟨compare_eq_specCompare a b, compare_self a, compare_symm a b⟩

/-- C8: `mergeVectorClocks` computes the pointwise maximum over the union of
keys (absent keys read 0), and is commutative, associative and idempotent, for
clocks without duplicate keys (every JS object). -/
theorem mergeVectorClocks_correct : ∀ a b c : VectorClock,
    VCWF a → VCWF b → VCWF c →
    (∀ k, vcGet (mergeVectorClocks a b) k = max (vcGet a k) (vcGet b k)) ∧
    (∀ k, vcGet (mergeVectorClocks a b) k = vcGet (mergeVectorClocks b a) k) ∧
    (∀ k, vcGet (mergeVectorClocks (mergeVectorClocks a b) c) k =
          vcGet (mergeVectorClocks a (mergeVectorClocks b c)) k) ∧
    (∀ k, vcGet (mergeVectorClocks a a) k = vcGet a k) := by
  intro a b c ha hb hc
  refine ⟨fun k => vcGet_merge b a hb k, fun k => ?_, fun k => ?_, fun k => ?_⟩
  · rw [vcGet_merge b a hb k, vcGet_merge a b ha k, Nat.max_comm]
  · rw [vcGet_merge c _ hc k, vcGet_merge b a hb k,
      vcGet_merge _ a (VCWF_merge c b hb) k, vcGet_merge c b hc k, Nat.max_assoc]
  · rw [vcGet_merge a a ha k, Nat.max_self]

/-- Witness for C8 at concrete clocks. -/
theorem mergeVectorClocks_correct_witness :
    vcGet (mergeVectorClocks [("A", 1), ("B", 5)] [("A", 3)]) "A" =
      max (vcGet [("A", 1), ("B", 5)] "A") (vcGet [("A", 3)] "A") ∧
    vcGet (mergeVectorClocks [("A", 1), ("B", 5)] [("A", 1), ("B", 5)]) "B" =
      vcGet [("A", 1), ("B", 5)] "B" :=
  ⟨(mergeVectorClocks_correct [("A", 1), ("B", 5)] [("A", 3)] [("C", 2)]
      (by unfold VCWF; decide) (by unfold VCWF; decide) (by unfold VCWF; decide)).1 "A",
   (mergeVectorClocks_correct [("A", 1), ("B", 5)] [("A", 3)] [("C", 2)]
      (by unfold VCWF; decide) (by unfold VCWF; decide) (by unfold VCWF; decide)).2.2.2 "B"⟩

/-- C9: `incrementVectorClock clock agentId` bumps exactly the `agentId`
dimension by one (absent read as 0), leaves every other dimension unchanged,
and decreases no dimension. -/
theorem incrementVectorClock_correct : ∀ (clock : VectorClock) (agentId : String),
    vcGet (incrementVectorClock clock agentId) agentId = vcGet clock agentId + 1 ∧
    (∀ k, k ≠ agentId → vcGet (incrementVectorClock clock agentId) k = vcGet clock k) ∧
    (∀ k, vcGet clock k ≤ vcGet (incrementVectorClock clock agentId) k) := by
  intro clock agentId
  refine ⟨?_, fun k hk => ?_, fun k => ?_⟩
  · rw [vcGet_incrementVectorClock, if_pos rfl]
  · rw [vcGet_incrementVectorClock, if_neg hk]
  · rw [vcGet_incrementVectorClock]
    by_cases hk : k = agentId
    · subst hk
      rw [if_pos rfl]
      omega
    · rw [if_neg hk]

/-- Witness for C9 at a concrete clock. -/
theorem incrementVectorClock_correct_witness :
    vcGet (incrementVectorClock [("A", 2)] "A") "A" = vcGet [("A", 2)] "A" + 1 ∧
    vcGet (incrementVectorClock [("A", 2)] "A") "B" = vcGet [("A", 2)] "B" :=
  ⟨(incrementVectorClock_correct [("A", 2)] "A").1,
   (incrementVectorClock_correct [("A", 2)] "A").2.1 "B" (by decide)⟩

/-! ## The Federation Hub session

Embedding of the `FederationHub` class.  Instance fields become a `HubState`
record; each method becomes a function from the old state (plus the external
inputs it consumes) to the new state together with its observable outputs:
the list of events passed to `emitEvent`, the trace of updates handed to the
storage applier `applyUpdate`, and the returned value or thrown error
(`Except`).  `Date.now()` readings are supplied by a `tape` oracle indexed by
call order; `sendSyncMessage` is the transport collaborator, an oracle from
the message to either the returned updates or a thrown error. -/

/-- `SyncOperation` from `types.ts`. -/
inductive SyncOperation
  | insert
  | update
  | delete
deriving DecidableEq, Repr

/-- `SyncUpdate` from `types.ts`; the opaque `data` payload is an
uninterpreted optional value. -/
structure SyncUpdate where
  id : String
  operation : SyncOperation
  data : Option String := none
  vectorClock : VectorClock
  timestamp : Nat
deriving DecidableEq, Repr

/-- `SyncMessageType` from `types.ts`. -/
inductive SyncMessageType
  | pull
  | push
  | ack
  | nack
deriving DecidableEq, Repr

/-- `SyncMessage` from `types.ts`. -/
structure SyncMessage where
  type : SyncMessageType
  agentId : String
  tenantId : String
  vectorClock : VectorClock
  timestamp : Nat
  data : Option (List SyncUpdate) := none
  requestId : Option String := none
deriving DecidableEq, Repr

/-- The resolution field of a `ConflictInfo`; `localRes` embeds the JS string
value 'local' (a Lean keyword). -/
inductive Resolution
  | localRes
  | remote
  | merge
  | skip
deriving DecidableEq, Repr

/-- `ConflictInfo` from `types.ts`. -/
structure ConflictInfo where
  recordId : String
  localVersion : SyncUpdate
  remoteVersion : SyncUpdate
  resolution : Resolution
  reason : String
deriving DecidableEq, Repr

/-- `SyncStats` from `types.ts`; the average duration is an exact rational
(the JS float is the quotient of the rolling-window sum by its length). -/
structure SyncStats where
  lastSyncTime : Nat
  totalSyncs : Nat
  totalPulled : Nat
  totalPushed : Nat
  totalConflicts : Nat
  totalResolved : Nat
  avgSyncDurationMs : ℚ
deriving DecidableEq, Repr

/-- `SyncResult` from `types.ts`; `durationMs` is a difference of two clock
readings, hence an integer. -/
structure SyncResult where
  success : Bool
  pullCount : Nat
  pushCount : Nat
  conflictCount : Nat
  resolvedConflicts : List ConflictInfo
  durationMs : Int
  vectorClock : VectorClock
deriving DecidableEq, Repr

/-- `ConflictResolutionStrategy` from `types.ts`. -/
inductive ConflictResolutionStrategy
  | lastWriteWins
  | firstWriteWins
  | custom
  | merge
deriving DecidableEq, Repr

/-- The configuration fields of `FederationHubConfig` the sync core reads
(transport-security fields are consumed only by the transport collaborator). -/
structure FederationHubConfig where
  endpoint : String
  agentId : String
  tenantId : String
  token : String
  syncInterval : Nat := 30000
  conflictResolution : ConflictResolutionStrategy := .lastWriteWins
deriving DecidableEq, Repr

/-- The events passed to `emitEvent` (`FederationEvent` in `types.ts`,
restricted to the variants the hub emits). -/
inductive FederationEvent
  | connected (agentId endpoint : String)
  | disconnected (agentId : String)
  | sync_started (agentId : String)
  | sync_completed (agentId : String) (result : SyncResult)
  | sync_failed (agentId : String) (error : String)
  | conflict_detected (recordId : String) (localClock remoteClock : VectorClock)
  | conflict_resolved (recordId : String) (resolution : Resolution)
deriving DecidableEq, Repr

/-- The mutable instance fields of a `FederationHub`. -/
structure HubState where
  config : FederationHubConfig
  connected : Bool
  vectorClock : VectorClock
  lastSyncTime : Nat
  changeLog : List SyncUpdate
  stats : SyncStats
  syncDurations : List Int
deriving DecidableEq, Repr

/-- The zero-initialised statistics record of the constructor. -/
def initialStats : SyncStats :=
  { lastSyncTime := 0, totalSyncs := 0, totalPulled := 0, totalPushed := 0,
    totalConflicts := 0, totalResolved := 0, avgSyncDurationMs := 0 }

/-- The `FederationHub` constructor: disconnected, empty change log, zero
stats, and `vectorClock[agentId] = 0`. -/
def mkFederationHub (config : FederationHubConfig) : HubState :=
  { config := config, connected := false,
    vectorClock := vcSet [] config.agentId 0,
    lastSyncTime := 0, changeLog := [], stats := initialStats, syncDurations := [] }

/-- The transport collaborator (`sendSyncMessage`): returns the remote
updates, or throws. -/
abbrev Transport := SyncMessage → Except String (List SyncUpdate)

/-- `connect()`: warn-and-return if already connected; else mark connected,
record `lastSyncTime = now` and emit `connected`. -/
def connect (now : Nat) (s : HubState) : HubState × List FederationEvent :=
  if s.connected then (s, [])
  else ({ s with connected := true, lastSyncTime := now },
    [FederationEvent.connected s.config.agentId s.config.endpoint])

/-- `disconnect()`: no-op if already disconnected; else mark disconnected and
emit `disconnected`.  The change log and clock persist. -/
def disconnect (s : HubState) : HubState × List FederationEvent :=
  if s.connected then
    ({ s with connected := false }, [FederationEvent.disconnected s.config.agentId])
  else (s, [])

/-- `recordChange(update)`: stamp the update with the current clock and
timestamp, append to the change log, then increment the own clock dimension. -/
def recordChange (s : HubState) (now : Nat) (update : SyncUpdate) : HubState :=
  let stamped := { update with vectorClock := s.vectorClock, timestamp := now }
  { s with changeLog := s.changeLog ++ [stamped],
           vectorClock := incrementVectorClock s.vectorClock s.config.agentId }

/-- JS reads `localVersion?.timestamp || Infinity` in the first-write-wins
branch; `none` models Infinity.  Note that a present timestamp of 0 is falsy
in JS and therefore also becomes Infinity. -/
def fwwLocalBound : Option SyncUpdate → Option Nat
  | none => none
  | some lv => if lv.timestamp = 0 then none else some lv.timestamp

/-- The resolver's local-version lookup:
`this.changeLog.find(u => u.id === remoteUpdate.id)`. -/
def localVersionOf (s : HubState) (remoteUpdate : SyncUpdate) : Option SyncUpdate :=
  s.changeLog.find? (fun u => decide (u.id = remoteUpdate.id))

/-- The `conflictInfo` record as initialised by `resolveConflict` before the
strategy switch: found local version or the synthetic placeholder, resolution
`skip`, empty reason. -/
def baseConflictInfo (s : HubState) (now : Nat) (remoteUpdate : SyncUpdate) : ConflictInfo :=
  { recordId := remoteUpdate.id
    localVersion := (localVersionOf s remoteUpdate).getD
      { id := remoteUpdate.id, operation := SyncOperation.update, data := none,
        vectorClock := s.vectorClock, timestamp := now }
    remoteVersion := remoteUpdate
    resolution := Resolution.skip
    reason := "" }

/-- The `switch (this.config.conflictResolution)` of `resolveConflict`. -/
def resolveBy : ConflictResolutionStrategy → Option SyncUpdate → ConflictInfo →
    SyncUpdate → ConflictInfo
  | ConflictResolutionStrategy.lastWriteWins, localVersion, base, remoteUpdate =>
      -- remote wins iff remoteUpdate.timestamp > (localVersion?.timestamp || 0)
      if (localVersion.map SyncUpdate.timestamp).getD 0 < remoteUpdate.timestamp then
        { base with resolution := Resolution.remote, reason := "Remote has newer timestamp" }
      else
        { base with resolution := Resolution.localRes, reason := "Local has newer timestamp" }
  | ConflictResolutionStrategy.firstWriteWins, localVersion, base, remoteUpdate =>
      -- remote wins iff remoteUpdate.timestamp < (localVersion?.timestamp || Infinity)
      match fwwLocalBound localVersion with
      | none =>
          { base with resolution := Resolution.remote, reason := "Remote has older timestamp" }
      | some t =>
          if remoteUpdate.timestamp < t then
            { base with resolution := Resolution.remote, reason := "Remote has older timestamp" }
          else
            { base with resolution := Resolution.localRes, reason := "Local has older timestamp" }
  | ConflictResolutionStrategy.merge, _, base, _ =>
      { base with resolution := Resolution.merge, reason := "Merged local and remote data" }
  | ConflictResolutionStrategy.custom, _, base, _ =>
      { base with resolution := Resolution.skip, reason := "No resolution strategy" }

/-- `resolveConflict(remoteUpdate)`: look up the local version by scanning the
change log for the record id, fall back to a synthetic placeholder, and decide
per the configured strategy. -/
def resolveConflict (s : HubState) (now : Nat) (remoteUpdate : SyncUpdate) : ConflictInfo :=
  resolveBy s.config.conflictResolution (localVersionOf s remoteUpdate)
    (baseConflictInfo s now remoteUpdate) remoteUpdate

/-- Result of `processRemoteUpdate`: the returned conflict (if any), the new
state, the emitted events, and the updates handed to `applyUpdate`. -/
structure ProcessOutcome where
  conflict : Option ConflictInfo
  state : HubState
  events : List FederationEvent
  applied : List SyncUpdate
deriving DecidableEq, Repr

/-- `processRemoteUpdate(db, update)`: a `concurrent` comparison emits
`conflict_detected`, resolves, emits `conflict_resolved` and returns the
conflict without touching state; otherwise the update is applied via the
storage applier and the clock merged. -/
def processRemoteUpdate (s : HubState) (now : Nat) (update : SyncUpdate) : ProcessOutcome :=
  if compareVectorClocks s.vectorClock update.vectorClock = ClockComparison.concurrent then
    let res := resolveConflict s now update
    { conflict := some res
      state := s
      events := [FederationEvent.conflict_detected update.id s.vectorClock update.vectorClock,
                 FederationEvent.conflict_resolved update.id res.resolution]
      applied := [] }
  else
    { conflict := none
      state := { s with vectorClock := mergeVectorClocks s.vectorClock update.vectorClock }
      events := []
      applied := [update] }

/-- The `for (const update of remoteUpdates)` loop of `sync`, collecting the
conflicts, events and applied-update trace in order. -/
def processAll (tape : Nat → Nat) : Nat → HubState → List SyncUpdate →
    HubState × List ConflictInfo × List FederationEvent × List SyncUpdate
  | _, s, [] => (s, [], [], [])
  | i, s, u :: rest =>
      let o := processRemoteUpdate s (tape i) u
      let r := processAll tape (i + 1) o.state rest
      (r.1, o.conflict.toList ++ r.2.1, o.events ++ r.2.2.1, o.applied ++ r.2.2.2)

/-- Outcome of one `sync` call: the returned result or thrown error, the new
state, the emitted events, and the applied-update trace. -/
structure SyncOutcome where
  result : Except String SyncResult
  state : HubState
  events : List FederationEvent
  applied : List SyncUpdate

/-- The successful tail of `sync`: duration, rolling-window statistics update
and `SyncResult` construction. -/
def commitSync (s3 : HubState) (startTime endNow lastNow : Nat)
    (pullCount pushCount : Nat) (conflicts : List ConflictInfo) :
    SyncResult × HubState :=
  let durationMs : Int := (endNow : Int) - (startTime : Int)
  let newDurations0 := s3.syncDurations ++ [durationMs]
  let newDurations := if 100 < newDurations0.length then newDurations0.tail else newDurations0
  let resolvedCount :=
    (conflicts.filter (fun c => decide (c.resolution ≠ Resolution.skip))).length
  let newStats : SyncStats :=
    { lastSyncTime := lastNow
      totalSyncs := s3.stats.totalSyncs + 1
      totalPulled := s3.stats.totalPulled + pullCount
      totalPushed := s3.stats.totalPushed + pushCount
      totalConflicts := s3.stats.totalConflicts + conflicts.length
      totalResolved := s3.stats.totalResolved + resolvedCount
      avgSyncDurationMs :=
        ((newDurations.foldl (fun x y => x + y) 0 : Int) : ℚ) / (newDurations.length : ℚ) }
  let result : SyncResult :=
    { success := true
      pullCount := pullCount
      pushCount := pushCount
      conflictCount := conflicts.length
      resolvedConflicts := conflicts
      durationMs := durationMs
      vectorClock := s3.vectorClock }
  (result, { s3 with stats := newStats, syncDurations := newDurations, lastSyncTime := lastNow })

/-- The state after step 2 of the cycle: the own clock dimension incremented
(`this.vectorClock = incrementVectorClock(this.vectorClock, agentId)`). -/
def incClock (s : HubState) : HubState :=
  { s with vectorClock := incrementVectorClock s.vectorClock s.config.agentId }

/-- The `pull` SyncMessage of the cycle, carrying the just-incremented clock. -/
def pullMessageOf (tape : Nat → Nat) (s : HubState) : SyncMessage :=
  { type := SyncMessageType.pull, agentId := s.config.agentId,
    tenantId := s.config.tenantId,
    vectorClock := (incClock s).vectorClock,
    timestamp := tape 1, data := none, requestId := none }

/-- The pull-processing loop of the cycle, started on the incremented state. -/
def prOf (tape : Nat → Nat) (s : HubState) (remoteUpdates : List SyncUpdate) :
    HubState × List ConflictInfo × List FederationEvent × List SyncUpdate :=
  processAll tape 2 (incClock s) remoteUpdates

/-- The `push` SyncMessage of the cycle, carrying the entire change log. -/
def pushMessageOf (tape : Nat → Nat) (s : HubState)
    (remoteUpdates : List SyncUpdate) : SyncMessage :=
  { type := SyncMessageType.push, agentId := s.config.agentId,
    tenantId := s.config.tenantId,
    vectorClock := (prOf tape s remoteUpdates).1.vectorClock,
    timestamp := tape (2 + remoteUpdates.length),
    data := some (prOf tape s remoteUpdates).1.changeLog, requestId := none }

/-- The push leg: skipped (trivially successful) when the change log is empty,
else one transport send of the push message. -/
def pushOutcomeOf (transport : Transport) (tape : Nat → Nat) (s : HubState)
    (remoteUpdates : List SyncUpdate) : Except String (List SyncUpdate) :=
  if (prOf tape s remoteUpdates).1.changeLog.isEmpty then Except.ok []
  else transport (pushMessageOf tape s remoteUpdates)

/-- The push leg and everything after it (clear-on-success, statistics,
`sync_completed` / `sync_failed`). -/
def syncPush (transport : Transport) (tape : Nat → Nat) (s : HubState)
    (remoteUpdates : List SyncUpdate) : SyncOutcome :=
  match pushOutcomeOf transport tape s remoteUpdates with
  | Except.error e =>
      { result := Except.error e,
        state := (prOf tape s remoteUpdates).1,
        events := FederationEvent.sync_started s.config.agentId ::
          ((prOf tape s remoteUpdates).2.2.1 ++
            [FederationEvent.sync_failed s.config.agentId e]),
        applied := (prOf tape s remoteUpdates).2.2.2 }
  | Except.ok _ =>
      { result := Except.ok
          (commitSync { (prOf tape s remoteUpdates).1 with changeLog := [] }
            (tape 0) (tape (3 + remoteUpdates.length)) (tape (4 + remoteUpdates.length))
            remoteUpdates.length (prOf tape s remoteUpdates).1.changeLog.length
            (prOf tape s remoteUpdates).2.1).1,
        state := (commitSync { (prOf tape s remoteUpdates).1 with changeLog := [] }
            (tape 0) (tape (3 + remoteUpdates.length)) (tape (4 + remoteUpdates.length))
            remoteUpdates.length (prOf tape s remoteUpdates).1.changeLog.length
            (prOf tape s remoteUpdates).2.1).2,
        events := FederationEvent.sync_started s.config.agentId ::
          ((prOf tape s remoteUpdates).2.2.1 ++
            [FederationEvent.sync_completed s.config.agentId
              (commitSync { (prOf tape s remoteUpdates).1 with changeLog := [] }
                (tape 0) (tape (3 + remoteUpdates.length)) (tape (4 + remoteUpdates.length))
                remoteUpdates.length (prOf tape s remoteUpdates).1.changeLog.length
                (prOf tape s remoteUpdates).2.1).1]),
        applied := (prOf tape s remoteUpdates).2.2.2 }

/-- The body of `sync` once connected: pull, then process and push — a
transport error during pull aborts with `sync_failed` but keeps the clock
increment. -/
def syncCore (transport : Transport) (tape : Nat → Nat) (s : HubState) : SyncOutcome :=
  match transport (pullMessageOf tape s) with
  | Except.error e =>
      { result := Except.error e, state := incClock s,
        events := [FederationEvent.sync_started s.config.agentId,
                   FederationEvent.sync_failed s.config.agentId e],
        applied := [] }
  | Except.ok remoteUpdates => syncPush transport tape s remoteUpdates

/-- `sync(db)`: fail fast when disconnected; else emit `sync_started`,
increment the own clock dimension, pull, process the remote updates, push the
change log (clearing it only on transport success), commit statistics and emit
`sync_completed` — any transport error instead emits `sync_failed` and
re-raises, leaving the statistics and change log of that cycle untouched. -/
def sync (transport : Transport) (tape : Nat → Nat) (s : HubState) : SyncOutcome :=
  if s.connected = false then
    { result := Except.error "Not connected to federation hub",
      state := s, events := [], applied := [] }
  else syncCore transport tape s

/-- `forcePush(updates)`: requires connection, sends one push message and adds
to `totalPushed`; no events are emitted. -/
def forcePush (transport : Transport) (now : Nat) (s : HubState)
    (updates : List SyncUpdate) : Except String Unit × HubState :=
  if s.connected = false then
    (Except.error "Not connected to federation hub", s)
  else
    match transport
        { type := SyncMessageType.push, agentId := s.config.agentId,
          tenantId := s.config.tenantId, vectorClock := s.vectorClock,
          timestamp := now, data := some updates, requestId := none } with
    | Except.error e => (Except.error e, s)
    | Except.ok _ =>
        (Except.ok (),
         { s with stats := { s.stats with totalPushed := s.stats.totalPushed + updates.length } })

/-- `forcePull()`: requires connection, sends one pull message, adds to
`totalPulled` and returns the updates; no events are emitted. -/
def forcePull (transport : Transport) (now : Nat) (s : HubState) :
    Except String (List SyncUpdate) × HubState :=
  if s.connected = false then
    (Except.error "Not connected to federation hub", s)
  else
    match transport
        { type := SyncMessageType.pull, agentId := s.config.agentId,
          tenantId := s.config.tenantId, vectorClock := s.vectorClock,
          timestamp := now, data := none, requestId := none } with
    | Except.error e => (Except.error e, s)
    | Except.ok updates =>
        (Except.ok updates,
         { s with stats := { s.stats with totalPulled := s.stats.totalPulled + updates.length } })

/-! ## Characterising the pull-processing loop -/

/-- The updates the storage applier receives while processing a pulled batch
from clock `c`: the non-conflicting ones in received order, the clock merging
along the way. -/
def acceptedUpdates (c : VectorClock) : List SyncUpdate → List SyncUpdate
  | [] => []
  | u :: rest =>
      if compareVectorClocks c u.vectorClock = ClockComparison.concurrent then
        acceptedUpdates c rest
      else u :: acceptedUpdates (mergeVectorClocks c u.vectorClock) rest

/-- The hub clock after processing a pulled batch from clock `c`: merged with
each non-conflicting update's clock, in order. -/
def pulledClock (c : VectorClock) : List SyncUpdate → VectorClock
  | [] => c
  | u :: rest =>
      if compareVectorClocks c u.vectorClock = ClockComparison.concurrent then
        pulledClock c rest
      else pulledClock (mergeVectorClocks c u.vectorClock) rest

/-- The loop only changes the vector clock, which evolves to `pulledClock`. -/
theorem processAll_state : ∀ (tape : Nat → Nat) (i : Nat) (s : HubState) (us : List SyncUpdate),
    (processAll tape i s us).1 = { s with vectorClock := pulledClock s.vectorClock us }
  | _, _, _, [] => rfl
  | tape, i, s, u :: rest => by
      have h0 : (processAll tape i s (u :: rest)).1 =
          (processAll tape (i + 1) (processRemoteUpdate s (tape i) u).state rest).1 := rfl
      by_cases hc : compareVectorClocks s.vectorClock u.vectorClock = ClockComparison.concurrent
      · have hstate : (processRemoteUpdate s (tape i) u).state = s := by
          simp only [processRemoteUpdate, if_pos hc]
        rw [h0, hstate, processAll_state tape (i + 1) s rest]
        simp only [pulledClock, if_pos hc]
      · have hstate : (processRemoteUpdate s (tape i) u).state =
            { s with vectorClock := mergeVectorClocks s.vectorClock u.vectorClock } := by
          simp only [processRemoteUpdate, if_neg hc]
        rw [h0, hstate, processAll_state tape (i + 1) _ rest]
        simp only [pulledClock, if_neg hc]

/-- The applied-update trace of the loop is `acceptedUpdates`. -/
theorem processAll_applied : ∀ (tape : Nat → Nat) (i : Nat) (s : HubState) (us : List SyncUpdate),
    (processAll tape i s us).2.2.2 = acceptedUpdates s.vectorClock us
  | _, _, _, [] => rfl
  | tape, i, s, u :: rest => by
      have h0 : (processAll tape i s (u :: rest)).2.2.2 =
          (processRemoteUpdate s (tape i) u).applied ++
            (processAll tape (i + 1) (processRemoteUpdate s (tape i) u).state rest).2.2.2 := rfl
      by_cases hc : compareVectorClocks s.vectorClock u.vectorClock = ClockComparison.concurrent
      · have hstate : (processRemoteUpdate s (tape i) u).state = s := by
          simp only [processRemoteUpdate, if_pos hc]
        have happ : (processRemoteUpdate s (tape i) u).applied = [] := by
          simp only [processRemoteUpdate, if_pos hc]
        rw [h0, hstate, happ, processAll_applied tape (i + 1) s rest]
        simp only [acceptedUpdates, if_pos hc, List.nil_append]
      · have hstate : (processRemoteUpdate s (tape i) u).state =
            { s with vectorClock := mergeVectorClocks s.vectorClock u.vectorClock } := by
          simp only [processRemoteUpdate, if_neg hc]
        have happ : (processRemoteUpdate s (tape i) u).applied = [u] := by
          simp only [processRemoteUpdate, if_neg hc]
        rw [h0, hstate, happ, processAll_applied tape (i + 1) _ rest]
        simp only [acceptedUpdates, if_neg hc, List.singleton_append]

/-- The loop leaves the change log untouched. -/
theorem processAll_changeLog (tape : Nat → Nat) (i : Nat) (s : HubState)
    (us : List SyncUpdate) : (processAll tape i s us).1.changeLog = s.changeLog := by
  rw [processAll_state]

/-- The loop leaves the statistics untouched. -/
theorem processAll_stats (tape : Nat → Nat) (i : Nat) (s : HubState)
    (us : List SyncUpdate) : (processAll tape i s us).1.stats = s.stats := by
  rw [processAll_state]

/-- The loop leaves the rolling duration window untouched. -/
theorem processAll_syncDurations (tape : Nat → Nat) (i : Nat) (s : HubState)
    (us : List SyncUpdate) : (processAll tape i s us).1.syncDurations = s.syncDurations := by
  rw [processAll_state]

/-- The loop leaves `lastSyncTime` untouched. -/
theorem processAll_lastSyncTime (tape : Nat → Nat) (i : Nat) (s : HubState)
    (us : List SyncUpdate) : (processAll tape i s us).1.lastSyncTime = s.lastSyncTime := by
  rw [processAll_state]

/-- The loop leaves the configuration untouched. -/
theorem processAll_config (tape : Nat → Nat) (i : Nat) (s : HubState)
    (us : List SyncUpdate) : (processAll tape i s us).1.config = s.config := by
  rw [processAll_state]

/-- The loop changes the clock to `pulledClock`. -/
theorem processAll_vectorClock (tape : Nat → Nat) (i : Nat) (s : HubState)
    (us : List SyncUpdate) :
    (processAll tape i s us).1.vectorClock = pulledClock s.vectorClock us := by
  rw [processAll_state]

/-! ## Concrete scenario data -/

/-- Configuration of the scenario hub: agent "A", default strategy
(`last-write-wins`). -/
def cfgA : FederationHubConfig :=
  { endpoint := "quic://hub:4433", agentId := "A", tenantId := "tenant-1", token := "tok" }

/-- A freshly constructed hub for agent "A" after `connect()`: connected,
clock `{A: 0}`, empty change log, zero statistics. -/
def hubA : HubState := (connect 0 (mkFederationHub cfgA)).1

/-- The scenario's remote update: clock `{A: 0, B: 1}`, concurrent with the
post-increment local clock `{A: 1}`. -/
def remoteB : SyncUpdate :=
  { id := "r1", operation := SyncOperation.update, data := none,
    vectorClock := [("A", 0), ("B", 1)], timestamp := 100 }

/-- A transport stub returning exactly one remote update on pull and an empty
acknowledgement otherwise. -/
def pullOneTransport : Transport := fun m =>
  match m.type with
  | SyncMessageType.pull => Except.ok [remoteB]
  | _ => Except.ok []

/-- A time oracle that always reads 0. -/
def zeroTape : Nat → Nat := fun _ => 0

/-- A remote update causally behind the hub clock of `hubA` (equal clocks),
hence non-conflicting. -/
def safeUpdate : SyncUpdate :=
  { id := "s1", operation := SyncOperation.insert, data := none,
    vectorClock := [("A", 0)], timestamp := 5 }

/-! ## Claims about the sync session -/

/-- C1 counterexample: in the concrete scenario the single pulled update is
resolved 'remote' — an accepted update per the claim — yet the storage applier
is never invoked for it. -/
theorem sync_apply_counterexample :
    (sync pullOneTransport zeroTape hubA).result.map
        (fun r => r.resolvedConflicts.map ConflictInfo.resolution) =
      Except.ok [Resolution.remote] ∧
    (sync pullOneTransport zeroTape hubA).applied = [] :=
  ⟨rfl, rfl⟩

/-- C1 (amended): during a sync cycle whose pull succeeds, the Storage
Applier's apply is invoked exactly for the non-conflicting updates, in the
order the updates were received; conflicting updates are never applied,
whatever their resolution (the session records the decision but performs no
apply for it). -/
theorem sync_applies_accepted :
    ∀ (transport : Transport) (tape : Nat → Nat) (s : HubState) (us : List SyncUpdate),
      s.connected = true →
      (∀ m, m.type = SyncMessageType.pull → transport m = Except.ok us) →
      (sync transport tape s).applied =
        acceptedUpdates (incrementVectorClock s.vectorClock s.config.agentId) us := by
  intro transport tape s us hconn htrans
  unfold sync
  have hcond : ¬ (s.connected = false) := by
    rw [hconn]
    simp
  rw [if_neg hcond]
  unfold syncCore
  rw [htrans _ rfl]
  show (syncPush transport tape s us).applied =
    acceptedUpdates (incrementVectorClock s.vectorClock s.config.agentId) us
  unfold syncPush
  cases hpo : pushOutcomeOf transport tape s us with
  | error e =>
      show (prOf tape s us).2.2.2 = _
      unfold prOf
      exact processAll_applied tape 2 _ us
  | ok l =>
      show (prOf tape s us).2.2.2 = _
      unfold prOf
      exact processAll_applied tape 2 _ us

/-- Witness for the amended C1 at the concrete scenario. -/
theorem sync_applies_accepted_witness :
    (sync pullOneTransport zeroTape hubA).applied =
      acceptedUpdates (incrementVectorClock hubA.vectorClock hubA.config.agentId) [remoteB] :=
  sync_applies_accepted pullOneTransport zeroTape hubA [remoteB] rfl
    (fun m hm => by simp [pullOneTransport, hm])

/-- C2: a pulled remote update is classified as a conflict exactly when the
hub clock and the update clock compare `concurrent`; a non-concurrent update
is applied unconditionally and its clock merged into the local clock; and in
the stub scenario (agent "A", empty change log, remote clock `{A:0, B:1}`
against post-increment local clock `{A:1}`) the sync reports
`conflictCount = 1`. -/
theorem conflict_iff_concurrent :
    (∀ (s : HubState) (now : Nat) (u : SyncUpdate),
      ((processRemoteUpdate s now u).conflict.isSome ↔
        compareVectorClocks s.vectorClock u.vectorClock = ClockComparison.concurrent) ∧
      (compareVectorClocks s.vectorClock u.vectorClock ≠ ClockComparison.concurrent →
        (processRemoteUpdate s now u).applied = [u] ∧
        (processRemoteUpdate s now u).state.vectorClock =
          mergeVectorClocks s.vectorClock u.vectorClock)) ∧
    (sync pullOneTransport zeroTape hubA).result.map SyncResult.conflictCount =
      Except.ok 1 := by
  constructor
  · intro s now u
    constructor
    · by_cases hc : compareVectorClocks s.vectorClock u.vectorClock =
          ClockComparison.concurrent
      · simp [processRemoteUpdate, hc]
      · simp [processRemoteUpdate, hc]
    · intro hc
      simp [processRemoteUpdate, hc]
  · rfl

/-- Witness for C2's non-conflicting branch at a concrete update. -/
theorem conflict_iff_concurrent_witness :
    (processRemoteUpdate hubA 7 safeUpdate).applied = [safeUpdate] ∧
    (processRemoteUpdate hubA 7 safeUpdate).state.vectorClock =
      mergeVectorClocks hubA.vectorClock safeUpdate.vectorClock :=
  (conflict_iff_concurrent.1 hubA 7 safeUpdate).2 (by decide)

/-- A transport that answers every pull with `pullRes` and fails every push
with `eMsg`. -/
def pushFailTransport (pullRes : List SyncUpdate) (eMsg : String) : Transport := fun m =>
  match m.type with
  | SyncMessageType.push => Except.error eMsg
  | _ => Except.ok pullRes

/-- A transport that always succeeds and returns nothing. -/
def okTransport : Transport := fun _ => Except.ok []

/-- The change the push-failure scenario records locally. -/
def r1Update : SyncUpdate :=
  { id := "r1", operation := SyncOperation.update, data := none,
    vectorClock := [], timestamp := 0 }

/-- Unfolding of a sync cycle whose pull succeeds and whose push fails at the
transport: the error is re-raised after `sync_failed`, the state is exactly
the post-pull state (statistics untouched, change log intact). -/
theorem sync_pushFail_eq (pullRes : List SyncUpdate) (eMsg : String) (tape : Nat → Nat)
    (s : HubState) (hconn : s.connected = true) (hne : s.changeLog ≠ []) :
    sync (pushFailTransport pullRes eMsg) tape s =
      { result := Except.error eMsg, state := (prOf tape s pullRes).1,
        events := FederationEvent.sync_started s.config.agentId ::
          ((prOf tape s pullRes).2.2.1 ++ [FederationEvent.sync_failed s.config.agentId eMsg]),
        applied := (prOf tape s pullRes).2.2.2 } := by
  have hcond : ¬ (s.connected = false) := by
    rw [hconn]
    simp
  have hlog : (prOf tape s pullRes).1.changeLog = s.changeLog := by
    unfold prOf
    rw [processAll_changeLog]
    rfl
  have hempty : (prOf tape s pullRes).1.changeLog.isEmpty = false := by
    rw [hlog]
    rcases hs : s.changeLog with _ | ⟨a, l⟩
    · exact absurd hs hne
    · rfl
  have hpush : pushOutcomeOf (pushFailTransport pullRes eMsg) tape s pullRes =
      Except.error eMsg := by
    unfold pushOutcomeOf
    rw [hempty]
    rfl
  unfold sync
  rw [if_neg hcond]
  unfold syncCore
  rw [show pushFailTransport pullRes eMsg (pullMessageOf tape s) = Except.ok pullRes from rfl]
  show syncPush (pushFailTransport pullRes eMsg) tape s pullRes = _
  unfold syncPush
  rw [hpush]

/-- C3: when the push leg of a sync cycle fails at the transport, the change
log is left non-empty and unchanged for the next cycle, the error is re-raised
after a `sync_failed` event, and none of the cycle's statistics updates
(including `lastSyncTime` and the rolling duration window) are committed; the
change log is cleared only when the push call returns successfully. -/
theorem sync_push_failure :
    ∀ (pullRes : List SyncUpdate) (eMsg : String) (tape : Nat → Nat) (s : HubState),
      s.connected = true → s.changeLog ≠ [] →
      ((sync (pushFailTransport pullRes eMsg) tape s).result = Except.error eMsg ∧
       (sync (pushFailTransport pullRes eMsg) tape s).state.changeLog = s.changeLog ∧
       (sync (pushFailTransport pullRes eMsg) tape s).state.stats = s.stats ∧
       (sync (pushFailTransport pullRes eMsg) tape s).state.syncDurations = s.syncDurations ∧
       (sync (pushFailTransport pullRes eMsg) tape s).state.lastSyncTime = s.lastSyncTime ∧
       (∃ evs, (sync (pushFailTransport pullRes eMsg) tape s).events =
          FederationEvent.sync_started s.config.agentId :: evs ++
            [FederationEvent.sync_failed s.config.agentId eMsg])) ∧
      (∀ transport : Transport, (∀ m, transport m = Except.ok pullRes) →
        (sync transport tape s).state.changeLog = []) := by
  intro pullRes eMsg tape s hconn hne
  have hcond : ¬ (s.connected = false) := by
    rw [hconn]
    simp
  have heq := sync_pushFail_eq pullRes eMsg tape s hconn hne
  constructor
  · refine ⟨by rw [heq], ?_, ?_, ?_, ?_, ⟨(prOf tape s pullRes).2.2.1, by rw [heq]; rfl⟩⟩
    · rw [heq]
      show (prOf tape s pullRes).1.changeLog = s.changeLog
      unfold prOf
      rw [processAll_changeLog]
      rfl
    · rw [heq]
      show (prOf tape s pullRes).1.stats = s.stats
      unfold prOf
      rw [processAll_stats]
      rfl
    · rw [heq]
      show (prOf tape s pullRes).1.syncDurations = s.syncDurations
      unfold prOf
      rw [processAll_syncDurations]
      rfl
    · rw [heq]
      show (prOf tape s pullRes).1.lastSyncTime = s.lastSyncTime
      unfold prOf
      rw [processAll_lastSyncTime]
      rfl
  · intro transport htr
    unfold sync
    rw [if_neg hcond]
    unfold syncCore
    rw [htr _]
    show (syncPush transport tape s pullRes).state.changeLog = []
    unfold syncPush
    cases hpo : pushOutcomeOf transport tape s pullRes with
    | error e =>
        unfold pushOutcomeOf at hpo
        rcases Bool.eq_false_or_eq_true ((prOf tape s pullRes).1.changeLog.isEmpty)
          with hb | hb
        · rw [hb] at hpo
          simp at hpo
        · rw [hb, htr _] at hpo
          simp at hpo
    | ok l => rfl

/-- Witness for C3 at a concrete recorded change and failing push. -/
theorem sync_push_failure_witness :
    (sync (pushFailTransport [] "boom") zeroTape (recordChange hubA 10 r1Update)).result =
      Except.error "boom" ∧
    (sync (pushFailTransport [] "boom") zeroTape
        (recordChange hubA 10 r1Update)).state.changeLog =
      (recordChange hubA 10 r1Update).changeLog :=
  ⟨((sync_push_failure [] "boom" zeroTape (recordChange hubA 10 r1Update)
      rfl (by decide)).1).1,
   ((sync_push_failure [] "boom" zeroTape (recordChange hubA 10 r1Update)
      rfl (by decide)).1).2.1⟩

/-- C5: `recordChange` stamps the update with the current clock and timestamp,
appends it to the change log and then increments the own clock dimension; a
recorded change followed by a sync against an empty-returning transport yields
`pushCount = 1` and an empty change log. -/
theorem recordChange_correct :
    (∀ (s : HubState) (now : Nat) (u : SyncUpdate),
      recordChange s now u =
        { s with
            changeLog := s.changeLog ++
              [{ u with vectorClock := s.vectorClock, timestamp := now }],
            vectorClock := incrementVectorClock s.vectorClock s.config.agentId }) ∧
    (sync okTransport zeroTape (recordChange hubA 50 r1Update)).result.map
        SyncResult.pushCount = Except.ok 1 ∧
    (sync okTransport zeroTape (recordChange hubA 50 r1Update)).state.changeLog = [] :=
  ⟨fun _ _ _ => rfl, rfl, rfl⟩

/-- C6: `sync`, `forcePush` and `forcePull` on a disconnected hub throw the
"Not connected to federation hub" error and mutate nothing: the returned state
is the input state (clock, change log and every statistics field unchanged)
and no events are emitted. -/
theorem notConnected_noop :
    ∀ (transport : Transport) (tape : Nat → Nat) (now : Nat) (s : HubState)
      (updates : List SyncUpdate), s.connected = false →
      sync transport tape s =
        { result := Except.error "Not connected to federation hub",
          state := s, events := [], applied := [] } ∧
      forcePush transport now s updates =
        (Except.error "Not connected to federation hub", s) ∧
      forcePull transport now s =
        (Except.error "Not connected to federation hub", s) := by
  intro transport tape now s updates h
  refine ⟨?_, ?_, ?_⟩
  · unfold sync
    rw [if_pos h]
  · unfold forcePush
    rw [if_pos h]
  · unfold forcePull
    rw [if_pos h]

/-- Witness for C6 at a freshly constructed (disconnected) hub. -/
theorem notConnected_noop_witness :
    sync okTransport zeroTape (mkFederationHub cfgA) =
      { result := Except.error "Not connected to federation hub",
        state := mkFederationHub cfgA, events := [], applied := [] } :=
  (notConnected_noop okTransport zeroTape 0 (mkFederationHub cfgA) [] rfl).1

/-- C10: a sync cycle that fails at the transport does not roll the vector
clock back: on a pull failure the state keeps the step-2 increment of the own
dimension; on a push failure it moreover keeps every merge performed for the
pulled updates — while the statistics and the change log stay untouched. -/
theorem sync_failure_keeps_clock :
    ∀ (eMsg : String) (tape : Nat → Nat) (s : HubState) (pullRes : List SyncUpdate),
      s.connected = true →
      ((sync (fun _ => Except.error eMsg) tape s).state.vectorClock =
          incrementVectorClock s.vectorClock s.config.agentId ∧
       (sync (fun _ => Except.error eMsg) tape s).state.changeLog = s.changeLog ∧
       (sync (fun _ => Except.error eMsg) tape s).state.stats = s.stats ∧
       (sync (fun _ => Except.error eMsg) tape s).result = Except.error eMsg) ∧
      (s.changeLog ≠ [] →
        (sync (pushFailTransport pullRes eMsg) tape s).state.vectorClock =
          pulledClock (incrementVectorClock s.vectorClock s.config.agentId) pullRes ∧
        (sync (pushFailTransport pullRes eMsg) tape s).state.stats = s.stats ∧
        (sync (pushFailTransport pullRes eMsg) tape s).state.changeLog = s.changeLog) := by
  intro eMsg tape s pullRes hconn
  have hcond : ¬ (s.connected = false) := by
    rw [hconn]
    simp
  constructor
  · have heq : sync (fun _ => Except.error eMsg) tape s =
        { result := Except.error eMsg, state := incClock s,
          events := [FederationEvent.sync_started s.config.agentId,
                     FederationEvent.sync_failed s.config.agentId eMsg],
          applied := [] } := by
      unfold sync
      rw [if_neg hcond]
      rfl
    exact ⟨by rw [heq]; rfl, by rw [heq]; rfl, by rw [heq]; rfl, by rw [heq]⟩
  · intro hne
    have heq := sync_pushFail_eq pullRes eMsg tape s hconn hne
    refine ⟨?_, ?_, ?_⟩
    · rw [heq]
      show (prOf tape s pullRes).1.vectorClock = _
      unfold prOf
      rw [processAll_vectorClock]
      rfl
    · rw [heq]
      show (prOf tape s pullRes).1.stats = s.stats
      unfold prOf
      rw [processAll_stats]
      rfl
    · rw [heq]
      show (prOf tape s pullRes).1.changeLog = s.changeLog
      unfold prOf
      rw [processAll_changeLog]
      rfl

/-- Witness for C10: pull failure at the concrete connected hub. -/
theorem sync_failure_keeps_clock_witness :
    (sync (fun _ => Except.error "down") zeroTape hubA).state.vectorClock =
      incrementVectorClock hubA.vectorClock hubA.config.agentId ∧
    (sync (fun _ => Except.error "down") zeroTape hubA).state.stats = hubA.stats :=
  ⟨((sync_failure_keeps_clock "down" zeroTape hubA [] rfl).1).1,
   ((sync_failure_keeps_clock "down" zeroTape hubA [] rfl).1).2.2.1⟩

/-- Configuration for the first-write-wins scenario. -/
def cfgFWW : FederationHubConfig :=
  { endpoint := "quic://hub:4433", agentId := "A", tenantId := "tenant-1", token := "tok",
    conflictResolution := ConflictResolutionStrategy.firstWriteWins }

/-- A pending local change for record "r" with timestamp 0 (falsy in JS). -/
def zeroTsLocal : SyncUpdate :=
  { id := "r", operation := SyncOperation.update, data := none,
    vectorClock := [("A", 0)], timestamp := 0 }

/-- A first-write-wins hub holding `zeroTsLocal` in its change log. -/
def fwwState : HubState :=
  { config := cfgFWW, connected := true, vectorClock := [("A", 1)], lastSyncTime := 0,
    changeLog := [zeroTsLocal], stats := initialStats, syncDurations := [] }

/-- A remote version of record "r" with timestamp 1. -/
def fwwRemote : SyncUpdate :=
  { id := "r", operation := SyncOperation.update, data := none,
    vectorClock := [("B", 1)], timestamp := 1 }

/-- C4 counterexample: under first-write-wins with a present local version of
timestamp 0, the code resolves 'remote' — the JS read
`localVersion?.timestamp || Infinity` treats the falsy timestamp 0 as missing
— although the claim's rule (remote iff
`remoteUpdate.timestamp < localVersion.timestamp`, Infinity only when the
local version is missing) demands 'local' here (1 < 0 fails). -/
theorem resolveConflict_fww_counterexample :
    (resolveConflict fwwState 5 fwwRemote).resolution = Resolution.remote ∧
    localVersionOf fwwState fwwRemote = some zeroTsLocal ∧
    ¬ (fwwRemote.timestamp < zeroTsLocal.timestamp) :=
  ⟨rfl, rfl, by decide⟩

/-- C4 (amended): conflict resolution follows the configured strategy's
decision table over the change-log lookup: under last-write-wins the
resolution is 'remote' iff `remoteUpdate.timestamp > localVersion.timestamp`
(missing local timestamp treated as 0) and 'local' otherwise; under
first-write-wins the resolution is 'remote' iff the local version is missing,
its timestamp is 0 (JS falsiness, treated like missing), or
`remoteUpdate.timestamp < localVersion.timestamp`, and 'local' otherwise;
under merge always 'merge'; for the remaining strategy 'skip' with reason
"No resolution strategy". -/
theorem resolveConflict_decision_table :
    ∀ (s : HubState) (now : Nat) (u : SyncUpdate),
      (s.config.conflictResolution = ConflictResolutionStrategy.lastWriteWins →
        (resolveConflict s now u).resolution =
          (if ((localVersionOf s u).map SyncUpdate.timestamp).getD 0 < u.timestamp
           then Resolution.remote else Resolution.localRes)) ∧
      (s.config.conflictResolution = ConflictResolutionStrategy.firstWriteWins →
        (resolveConflict s now u).resolution =
          (match localVersionOf s u with
           | none => Resolution.remote
           | some lv =>
               if lv.timestamp = 0 then Resolution.remote
               else if u.timestamp < lv.timestamp then Resolution.remote
               else Resolution.localRes)) ∧
      (s.config.conflictResolution = ConflictResolutionStrategy.merge →
        (resolveConflict s now u).resolution = Resolution.merge) ∧
      (s.config.conflictResolution = ConflictResolutionStrategy.custom →
        (resolveConflict s now u).resolution = Resolution.skip ∧
        (resolveConflict s now u).reason = "No resolution strategy") := by
  intro s now u
  refine ⟨fun h => ?_, fun h => ?_, fun h => ?_, fun h => ?_⟩
  · unfold resolveConflict
    rw [h]
    show (resolveBy ConflictResolutionStrategy.lastWriteWins (localVersionOf s u)
      (baseConflictInfo s now u) u).resolution = _
    simp only [resolveBy]
    by_cases hc : ((localVersionOf s u).map SyncUpdate.timestamp).getD 0 < u.timestamp
    · rw [if_pos hc, if_pos hc]
    · rw [if_neg hc, if_neg hc]
  · unfold resolveConflict
    rw [h]
    show (resolveBy ConflictResolutionStrategy.firstWriteWins (localVersionOf s u)
      (baseConflictInfo s now u) u).resolution = _
    simp only [resolveBy]
    cases hlv : localVersionOf s u with
    | none => rfl
    | some lv =>
        by_cases h0 : lv.timestamp = 0
        · simp [fwwLocalBound, h0]
        · by_cases hts : u.timestamp < lv.timestamp
          · simp [fwwLocalBound, h0, hts]
          · simp [fwwLocalBound, h0, hts]
  · unfold resolveConflict
    rw [h]
    rfl
  · unfold resolveConflict
    rw [h]
    exact ⟨rfl, rfl⟩

/-- Witness for the amended C4 at the first-write-wins scenario state. -/
theorem resolveConflict_decision_table_witness :
    (resolveConflict fwwState 5 fwwRemote).resolution =
      (match localVersionOf fwwState fwwRemote with
       | none => Resolution.remote
       | some lv =>
           if lv.timestamp = 0 then Resolution.remote
           else if fwwRemote.timestamp < lv.timestamp then Resolution.remote
           else Resolution.localRes) :=
  (resolveConflict_decision_table fwwState 5 fwwRemote).2.1 rfl

end Federation
